import Mathlib

/-!
Shallow embedding of the RA-NEM repository (price shapers, splitters and
cash-volatility / PVM estimators for electricity markets) in Lean 4.

Conventions used throughout:
* `Date` is a civil date (year, month, day); `Date.dayofweek` follows the
  pandas convention Monday = 0 .. Sunday = 6 (computed by Zeller's rule).
* Python `while` loops over at most a month of days are embedded as
  fuel-indexed recursions with fuel large enough to cover the loop bound.
* Machine floats of the source are modelled as exact rationals; the
  transcendental functions `np.log`, `np.sqrt` and `norm.pdf` are taken as
  opaque function parameters, since every claim under study is about how
  the code combines their values, not about their numerics.
* Python exceptions are modelled with `Except`.
-/

deriving instance DecidableEq for Except

namespace RANEM

/-- A civil calendar date, as carried by `pd.Timestamp` at day resolution. -/
structure Date where
  year : Int
  month : Int
  day : Int
deriving DecidableEq, Repr

/-- pandas `Timestamp.dayofweek` (Monday = 0 .. Sunday = 6), via Zeller's
congruence.  Matches `date.dayofweek` / `dt.weekday()` used in `util.py`. -/
def Date.dayofweek (dt : Date) : Int :=
  let m := if dt.month ≤ 2 then dt.month + 12 else dt.month
  let y := if dt.month ≤ 2 then dt.year - 1 else dt.year
  let K := y % 100
  let J := y / 100
  let h := (dt.day + 13 * (m + 1) / 5 + K + K / 4 + J / 4 + 5 * J) % 7
  (h + 5) % 7

/-- Fuelled version of `while dt.weekday() != target: dt -= 1 day` (stays
within one month in every use in `util.py`). -/
def seekBackTo (y m : Int) (target : Int) : Nat → Int → Int
  | 0, d => d
  | fuel + 1, d => if Date.dayofweek ⟨y, m, d⟩ = target then d else seekBackTo y m target fuel (d - 1)

/-- Fuelled version of `while dt.weekday() != target: dt += 1 day`. -/
def seekFwdTo (y m : Int) (target : Int) : Nat → Int → Int
  | 0, d => d
  | fuel + 1, d => if Date.dayofweek ⟨y, m, d⟩ = target then d else seekFwdTo y m target fuel (d + 1)

/-- `util._memorial_day`: last Monday of May. -/
def memorial_day (y : Int) : Date := ⟨y, 5, seekBackTo y 5 0 7 31⟩

/-- `util._labor_day`: first Monday of September. -/
def labor_day (y : Int) : Date := ⟨y, 9, seekFwdTo y 9 0 7 1⟩

/-- The counting loop of `util._thanksgiving_day`: starting from Nov 1,
advance a day at a time, counting Thursdays, until four have been seen;
return the day before the final position (the code's `dt - 1 day`). -/
def thanksgiving_loop (y : Int) : Nat → Int → Int → Int
  | 0, _, d => d - 1
  | fuel + 1, c, d =>
    if c < 4 then thanksgiving_loop y fuel (if Date.dayofweek ⟨y, 11, d⟩ = 3 then c + 1 else c) (d + 1)
    else d - 1

/-- `util._thanksgiving_day`: fourth Thursday of November. -/
def thanksgiving_day (y : Int) : Date := ⟨y, 11, thanksgiving_loop y 40 0 1⟩

/-- `util._new_years_day`: Jan 1, observed the following day when it is a Sunday. -/
def new_years_day (y : Int) : Date := ⟨y, 1, if Date.dayofweek ⟨y, 1, 1⟩ = 6 then 2 else 1⟩

/-- `util._independence_day`: Jul 4, observed the following day when it is a Sunday. -/
def independence_day (y : Int) : Date := ⟨y, 7, if Date.dayofweek ⟨y, 7, 4⟩ = 6 then 5 else 4⟩

/-- `util._christmas_day`: Dec 25, observed the following day when it is a Sunday. -/
def christmas_day (y : Int) : Date := ⟨y, 12, if Date.dayofweek ⟨y, 12, 25⟩ = 6 then 26 else 25⟩

/-- `util.get_holidays`: the six NERC holidays of a year, in source order. -/
def get_holidays (y : Int) : List Date :=
  [labor_day y, memorial_day y, independence_day y, new_years_day y, thanksgiving_day y, christmas_day y]

/-- The closed set of market identifiers accepted by the assert in
`util.date_hour_to_peak_block`. -/
inductive Iso
  | PJM | ISONE | NYISO | MISO | ERCOT | SPP | CAISO
deriving DecidableEq, Repr

/-- `util.list_peak_blocks`: the label set per market; raises for markets
outside its two groups (notably NYISO). -/
def list_peak_blocks (iso : Iso) : Except String (List String) :=
  if iso = .CAISO then .ok ["6x16-Weekday", "6x16-Saturday", "Off-Sunday", "Off-Night"]
  else if iso = .PJM ∨ iso = .ISONE ∨ iso = .MISO ∨ iso = .ERCOT ∨ iso = .SPP then
    .ok ["5x16", "2x16", "7x8"]
  else .error "ISO not recognized"

/-- `util.date_hour_to_peak_block`: classify a (date, hour 1..24) pair into a
peak-block label for the given market.  The trailing `.error` branch embeds
the function's final `raise`. -/
def date_hour_to_peak_block (date : Date) (hour : Int) (iso : Iso) : Except String String :=
  let is_holiday : Bool := decide (date ∈ get_holidays date.year)
  let is_saturday : Bool := decide (date.dayofweek = 5)
  let is_sunday : Bool := decide (date.dayofweek = 6)
  if iso = .PJM ∨ iso = .ISONE ∨ iso = .NYISO ∨ iso = .MISO then
    let is_night : Bool := ! decide (8 ≤ hour ∧ hour ≤ 23)
    let is_off_peak : Bool := is_holiday || is_saturday || is_sunday || is_night
    .ok (if !is_off_peak then "5x16" else if is_night then "7x8" else "2x16")
  else if iso = .ERCOT ∨ iso = .SPP then
    let is_night : Bool := ! decide (7 ≤ hour ∧ hour ≤ 22)
    let is_off_peak : Bool := is_holiday || is_saturday || is_sunday || is_night
    .ok (if !is_off_peak then "5x16" else if is_night then "7x8" else "2x16")
  else if iso = .CAISO then
    let is_night : Bool := ! decide (7 ≤ hour ∧ hour ≤ 22)
    let is_off_peak : Bool := is_holiday || is_sunday || is_night
    .ok (if is_off_peak then (if is_night then "Off-Night" else "Off-Sunday")
         else (if is_saturday then "6x16-Saturday" else "6x16-Weekday"))
  else .error "ISO not recognized"

/-- The label extracted from a successful classification (used to phrase
totality without an existential). -/
def peak_block_label (date : Date) (hour : Int) (iso : Iso) : String :=
  (date_hour_to_peak_block date hour iso).toOption.getD ""

/-- The label scheme of each market group: the four-category Pacific scheme
for CAISO, the three-category scheme for every other supported market. -/
def peak_block_scheme (iso : Iso) : List String :=
  if iso = .CAISO then ["6x16-Weekday", "6x16-Saturday", "Off-Sunday", "Off-Night"]
  else ["5x16", "2x16", "7x8"]

/-- `util.peak_block_to_complement`: the paired category within the same
traded block, `none` for the on-peak label, an error otherwise. -/
def peak_block_to_complement (peak_block : String) : Except String (Option String) :=
  if peak_block = "5x16" then .ok none
  else if peak_block = "7x8" then .ok (some "2x16")
  else if peak_block = "2x16" then .ok (some "7x8")
  else if peak_block = "Off-Night" then .ok (some "Off-Sunday")
  else if peak_block = "Off-Sunday" then .ok (some "Off-Night")
  else if peak_block = "6x16-Saturday" then .ok (some "6x16-Weekday")
  else if peak_block = "6x16-Weekday" then .ok (some "6x16-Saturday")
  else .error ("Peak Block not recognized: " ++ peak_block)

/-!  ShaperEstimator core (`shapers.pull_lmp_and_calc_shaper`, lines 64-69).

The group of observations of one (Month, Peak Block) cell of the two
`groupby` aggregations is modelled as a list of (hour, price) pairs. -/

/-- Number of observations of one hour within a (month, block) group. -/
def hourCnt (obs : List (Int × ℚ)) (h : Int) : ℕ :=
  (obs.filter (fun o => o.1 = h)).length

/-- Sum of prices of one hour within a (month, block) group. -/
def hourSum (obs : List (Int × ℚ)) (h : Int) : ℚ :=
  ((obs.filter (fun o => o.1 = h)).map Prod.snd).sum

/-- `avg_hourly` of `shapers.py`: mean price per (month, block, hour). -/
def avg_hourly (obs : List (Int × ℚ)) (h : Int) : ℚ :=
  hourSum obs h / hourCnt obs h

/-- `avg_peak_block` of `shapers.py`: mean price per (month, block). -/
def avg_peak_block (obs : List (Int × ℚ)) : ℚ :=
  (obs.map Prod.snd).sum / obs.length

/-- `shaper = avg_hourly / avg_peak_block` (`shapers.py` line 67). -/
def shaper_at (obs : List (Int × ℚ)) (h : Int) : ℚ :=
  avg_hourly obs h / avg_peak_block obs

/-- The hours that actually occur in the group (the keys of the hourly
`groupby`), each listed once. -/
def obsHours (obs : List (Int × ℚ)) : List Int :=
  (obs.map Prod.fst).dedup

/-- The observation-count-weighted average of the group's hourly shaper
ratios, over the hours present in the group. -/
def weighted_shaper_avg (obs : List (Int × ℚ)) : ℚ :=
  ((obsHours obs).map (fun h => (hourCnt obs h : ℚ) * shaper_at obs h)).sum /
    ((obsHours obs).map (fun h => (hourCnt obs h : ℚ))).sum

/-!  SplitterEstimator (`splitters.pull_lmp_and_calc_splitter`).

`df_daily` — one row per date after the daily pivot/merge steps — is
modelled as a list of `DailyRow`.  A pandas NaN entry (a date whose pivot
produced no value for a traded-block column) is `none`.  The Gaussian
kernel density `scipy.stats.norm.pdf` is an opaque parameter `pdf`. -/

/-- One row of `df_daily`: calendar month of the date, daily mean 2x16
price, daily mean Off price, decay factor, off-peak day weight. -/
structure DailyRow where
  month : Int
  price2x16 : Option ℚ
  priceOff : Option ℚ
  decayFactor : ℚ
  offPeakDayWeight : ℚ
deriving DecidableEq, Repr

/-- pandas `Series.sum()` over a column with missing entries: NaN entries
are skipped (`skipna=True`, the default used throughout the source). -/
def nansum (l : List (Option ℚ)) : ℚ :=
  (l.map (fun o => o.getD 0)).sum

/-- `df_daily['2x16 weight'] = Kernel Weight * Decay Factor`. -/
def w2x16 (kw : Int → ℚ) (r : DailyRow) : ℚ :=
  kw r.month * r.decayFactor

/-- `df_daily['Off peak weight'] = Kernel Weight * Decay Factor * Off peak day weight`. -/
def wOff (kw : Int → ℚ) (r : DailyRow) : ℚ :=
  kw r.month * r.decayFactor * r.offPeakDayWeight

/-- `avg_2x16` (`splitters.py` line 133): the weighted-price column is
summed with NaN-skipping, the weight column is summed over the rows where
the 2x16 price is not null. -/
def avg_2x16 (kw : Int → ℚ) (T : List DailyRow) : ℚ :=
  nansum (T.map (fun r => r.price2x16.map (fun v => v * w2x16 kw r))) /
    ((T.filter (fun r => r.price2x16.isSome)).map (w2x16 kw)).sum

/-- `avg_off` (`splitters.py` line 136): the weighted-price column is
summed with NaN-skipping, but the weight column is summed over ALL rows
(the source applies no `notnull` filter on this denominator). -/
def avg_off (kw : Int → ℚ) (T : List DailyRow) : ℚ :=
  nansum (T.map (fun r => r.priceOff.map (fun v => v * wOff kw r))) /
    (T.map (wOff kw)).sum

/-- `splitter_dict[splitter_month] = avg_2x16 / avg_off` (line 139). -/
def splitter_for_month (kw : Int → ℚ) (T : List DailyRow) : ℚ :=
  avg_2x16 kw T / avg_off kw T

/-- Modelled from the spec wording of the claim under test (refinement
counterpart): a weighted average whose numerator AND denominator both range
over the days that actually have a 2x16 value. -/
def spec_weighted_avg_2x16 (kw : Int → ℚ) (T : List DailyRow) : ℚ :=
  (((T.filter (fun r => r.price2x16.isSome)).map (fun r => r.price2x16.getD 0 * w2x16 kw r)).sum) /
    ((T.filter (fun r => r.price2x16.isSome)).map (w2x16 kw)).sum

/-- Modelled from the spec wording of the claim under test (refinement
counterpart): a weighted average whose numerator AND denominator both range
over the days that actually have an Off value. -/
def spec_weighted_avg_off (kw : Int → ℚ) (T : List DailyRow) : ℚ :=
  (((T.filter (fun r => r.priceOff.isSome)).map (fun r => r.priceOff.getD 0 * wOff kw r)).sum) /
    ((T.filter (fun r => r.priceOff.isSome)).map (wOff kw)).sum

/-- `splitters.months_away`: circular month distance. -/
def months_away (kernel_month splitter_month : Int) : Int :=
  let a := (kernel_month - splitter_month).natAbs
  if (a : Int) ≤ 6 then (a : Int) else 12 - (a : Int)

/-- `kernel_weights = norm.pdf(months_away_arr / bm)` with `bm = 0.5`,
looked up per row month (`splitters.py` lines 113-126), with the Gaussian
density `pdf` opaque. -/
def kernelWeight (pdf : ℚ → ℚ) (splitter_month kernel_month : Int) : ℚ :=
  pdf ((months_away kernel_month splitter_month : ℚ) / (1 / 2))

/-- The python errors `pull_lmp_and_calc_splitter` can raise before/instead
of returning: a failed `assert`, and the `NameError` raised at line 142 when
`splitter_dict` was never assigned. -/
inductive SplitterErr
  | assertionError
  | nameError
deriving DecidableEq, Repr

/-- `splitters.SUPPORTED_ISOS`. -/
def SUPPORTED_ISOS : List Iso := [.SPP, .CAISO, .MISO, .ISONE, .PJM]

/-- `splitters.pull_lmp_and_calc_splitter`, modelled from the daily table
onward.  Control flow of the source: after `assert iso in SUPPORTED_ISOS`,
the entire post-processing block — including `splitter_dict = {}` and the
month loop (lines 59-139) — sits inside `if iso == 'MISO':`, so for every
other market the final `pd.DataFrame.from_dict(splitter_dict, ...)` at line
142 raises `NameError` (`splitter_dict` is an unassigned local). -/
def pull_lmp_and_calc_splitter (pdf : ℚ → ℚ) (iso : Iso) (T : List DailyRow) :
    Except SplitterErr (List (Int × ℚ)) :=
  if iso ∈ SUPPORTED_ISOS then
    if iso = .MISO then
      .ok (((List.range 12).map (fun i => (i : Int) + 1)).map
        (fun sm => (sm, splitter_for_month (kernelWeight pdf sm) T)))
    else .error .nameError
  else .error .assertionError

/-!  TimezoneNormalizer (`util.convert_lmps_tz`).

Timestamps are modelled on an hourly axis: a date is a day number (days
since 1970-01-01) and an absolute time is `day * 24 + hour0` with `hour0` a
0-23 wall-clock hour.  Fixed-offset conventions ('EST') and the
DST-observing civil zones US/Eastern and US/Central are modelled through
their UTC offsets; DST transition instants follow the US rule (second
Sunday of March, first Sunday of November, 02:00 local), the same rule
`util.spring_dst` / `util.fall_dst` document. -/

/-- Day number of a civil date (days since 1970-01-01), Hinnant's
`days_from_civil`.  `Int` division is Euclidean, which agrees with floor
division for the positive divisors used here. -/
def daysFromCivil (y m d : Int) : Int :=
  let y' := if m ≤ 2 then y - 1 else y
  let era := y' / 400
  let yoe := y' - era * 400
  let mp := if m > 2 then m - 3 else m + 9
  let doy := (153 * mp + 2) / 5 + d - 1
  let doe := yoe * 365 + yoe / 4 - yoe / 100 + doy
  era * 146097 + doe - 719468

/-- Civil date (year, month, day) of a day number, Hinnant's
`civil_from_days`. -/
def civilFromDays (z : Int) : Int × Int × Int :=
  let z' := z + 719468
  let era := z' / 146097
  let doe := z' - era * 146097
  let yoe := (doe - doe / 1460 + doe / 36524 - doe / 146096) / 365
  let y := yoe + era * 400
  let doy := doe - (365 * yoe + yoe / 4 - yoe / 100)
  let mp := (5 * doy + 2) / 153
  let d := doy - (153 * mp + 2) / 5 + 1
  let m := if mp < 10 then mp + 3 else mp - 9
  (if m ≤ 2 then y + 1 else y, m, d)

/-- `util.spring_dst`: second Sunday of March. -/
def spring_dst (y : Int) : Date := ⟨y, 3, seekFwdTo y 3 6 7 1 + 7⟩

/-- `util.fall_dst`: first Sunday of November. -/
def fall_dst (y : Int) : Date := ⟨y, 11, seekFwdTo y 11 6 7 1⟩

/-- UTC offset (hours) of the US/Eastern civil zone at a UTC instant given
in hours: EDT (-4) between 02:00 EST of the spring transition day and 02:00
EDT of the fall transition day, EST (-5) otherwise. -/
def usEasternOffsetAt (utc : Int) : Int :=
  let y := (civilFromDays (utc / 24)).1
  let sd := daysFromCivil y 3 (spring_dst y).day
  let fd := daysFromCivil y 11 (fall_dst y).day
  if sd * 24 + 7 ≤ utc ∧ utc < fd * 24 + 6 then -4 else -5

/-- UTC offset (hours) of the US/Central civil zone at a UTC instant. -/
def usCentralOffsetAt (utc : Int) : Int :=
  let y := (civilFromDays (utc / 24)).1
  let sd := daysFromCivil y 3 (spring_dst y).day
  let fd := daysFromCivil y 11 (fall_dst y).day
  if sd * 24 + 8 ≤ utc ∧ utc < fd * 24 + 7 then -5 else -6

/-- The source conventions a series can be localized to by
`DatetimeIndex.tz_localize` in this module. -/
inductive SrcTz
  | EST
  | USEastern
  | USCentral
deriving DecidableEq, Repr

/-- UTC offset used by `tz_localize` for a NAIVE local time (hours since
epoch on the local wall clock).  'EST' is the fixed-offset zone UTC-5; for
the civil zones the offset follows the wall-clock DST rule (on transition
days pandas raises for ambiguous/nonexistent times; the claims under test
exclude those days). -/
def localizeOffset (tz : SrcTz) (naive : Int) : Int :=
  match tz with
  | .EST => -5
  | .USEastern =>
    let y := (civilFromDays (naive / 24)).1
    let sd := daysFromCivil y 3 (spring_dst y).day
    let fd := daysFromCivil y 11 (fall_dst y).day
    if sd * 24 + 2 ≤ naive ∧ naive < fd * 24 + 2 then -4 else -5
  | .USCentral =>
    let y := (civilFromDays (naive / 24)).1
    let sd := daysFromCivil y 3 (spring_dst y).day
    let fd := daysFromCivil y 11 (fall_dst y).day
    if sd * 24 + 2 ≤ naive ∧ naive < fd * 24 + 2 then -5 else -6

/-- One row of an hourly LMP table: date (day number), hour 1..24, price. -/
structure LmpRow where
  date : Int
  hour : Int
  price : ℚ
deriving DecidableEq, Repr

/-- `util.convert_lmps_tz`: per row, fold Date and 1-24 Hour into a naive
timestamp, localize it to `convert_from`, convert it to US/Central when
`convert_to == 'CPT'` or US/Eastern when `convert_to == 'EPT'` — and to
NOTHING otherwise (the source has no further branch, so any other target
leaves the index in the `convert_from` zone and the extracted wall clock is
the original one) — then split back into Date and 1-24 Hour. -/
def convert_lmps_tz (rows : List LmpRow) (convert_from : SrcTz) (convert_to : String) :
    List LmpRow :=
  rows.map (fun r =>
    let naive := r.date * 24 + (r.hour - 1)
    let wall :=
      if convert_to = "CPT" then
        let utc := naive - localizeOffset convert_from naive
        utc + usCentralOffsetAt utc
      else if convert_to = "EPT" then
        let utc := naive - localizeOffset convert_from naive
        utc + usEasternOffsetAt utc
      else naive
    { date := wall / 24, hour := wall % 24 + 1, price := r.price })

/-!  CashVolatilityEstimator (`pvm._get_cash_vol` and `pvm.get_cash_pvm`).

A daily price series of one peak block is a list of (day number, daily mean
price or missing).  `np.log` and `np.sqrt` are opaque parameters `rlog` and
`rsqrt`. -/

/-- `daily_prices = df_lmp[peak_block].dropna()` (`pvm.py` line 69): days
with no observation for the block are dropped, not filled. -/
def dropna (s : List (Int × Option ℚ)) : List (Int × ℚ) :=
  s.filterMap (fun p => p.2.map (fun v => (p.1, v)))

/-- `np.log(daily_prices).diff().iloc[1:] / np.sqrt(dt)` with
`dt = (index[1:] - index[:-1]).days / 360` (`pvm.py` lines 70-71), as the
vectorized shifted-series operation: element i pairs day i+1 with day i. -/
def cash_returns (rlog rsqrt : ℚ → ℚ) (l : List (Int × ℚ)) : List (Int × ℚ) :=
  List.zipWith (fun b a => (b.1, (rlog b.2 - rlog a.2) / rsqrt ((b.1 - a.1 : ℚ) / 360)))
    l.tail l

/-- Modelled from the spec wording of the claim under test (refinement
counterpart): the i-th scaled log-return, written by indexing — the
log-price difference between consecutive available days i and i+1, divided
by the annualization factor `sqrt(elapsedCalendarDays/360)`. -/
def spec_scaled_return (rlog rsqrt : ℚ → ℚ) (l : List (Int × ℚ)) (i : ℕ) : Int × ℚ :=
  let a := l.getD i (0, 0)
  let b := l.getD (i + 1) (0, 0)
  (b.1, (rlog b.2 - rlog a.2) / rsqrt ((b.1 - a.1 : ℚ) / 360))

/-- The (year, month) calendar-month key of a day number; grouping by it is
grouping by calendar month-end (`pd.Grouper(freq='ME')`). -/
def monthKeyOf (d : Int) : Int × Int :=
  let c := civilFromDays d
  (c.1, c.2.1)

/-- Mean of a list of rationals (pandas mean; an empty list is a NaN group
that the claims under test exclude — division by zero yields 0 here). -/
def listMean (l : List ℚ) : ℚ := l.sum / l.length

/-- Monthly volatility of the scaled returns (`pvm.py` lines 72-75): the
returns of one calendar month aggregated by root-mean-square when
`zero_mean`, by sample (ddof = 1) standard deviation otherwise. -/
def monthly_vol (rsqrt : ℚ → ℚ) (zero_mean : Bool) (rets : List (Int × ℚ))
    (ym : Int × Int) : ℚ :=
  let xs := (rets.filter (fun r => monthKeyOf r.1 = ym)).map Prod.snd
  if zero_mean then rsqrt ((xs.map (fun x => x ^ 2)).sum / xs.length)
  else rsqrt (((xs.map (fun x => (x - xs.sum / xs.length) ^ 2)).sum) / ((xs.length : ℚ) - 1))

/-- Modelled from the spec wording of the claim under test: root-mean-square
of a month's scaled log-returns. -/
def spec_rms (rsqrt : ℚ → ℚ) (xs : List ℚ) : ℚ :=
  rsqrt (listMean (xs.map (fun x => x ^ 2)))

/-- Modelled from the spec wording of the claim under test: sample standard
deviation (denominator n-1, deviations from the sample mean). -/
def spec_sample_std (rsqrt : ℚ → ℚ) (xs : List ℚ) : ℚ :=
  rsqrt ((xs.map (fun x => (x - listMean xs) ^ 2)).sum / ((xs.length : ℚ) - 1))

/-!  Hub PVM column (`pvm.get_cash_pvm`, lines 112-125).

All the DataFrame steps of `get_cash_pvm` act column-wise, so the '5x16'
column of the 'Hub' matrix is computed from the hub's '5x16' monthly cash
vol series alone: divide the series by itself, clip at the per-column upper
`q_upper` quantile, average by calendar month of the month-end index, and
append the grand average.  The series below lists exactly the month-ends
whose vol is defined (a pandas NaN row is skipped by every aggregation
involved). -/

/-- `hub_pvm = hub_cash_vol.div(hub_cash_vol['5x16'], axis=0)` restricted to
the '5x16' column: each entry divided by itself. -/
def hub_pvm_on_col (vols : List (Int × ℚ)) : List (Int × ℚ) :=
  vols.map (fun p => (p.1, p.2 / p.2))

/-- `Series.quantile(q=1)`: the maximum of the column's values. -/
def quantile_one (l : List ℚ) : ℚ := l.foldr max 0

/-- `clip(upper=u)` applied entrywise. -/
def clip_upper (u x : ℚ) : ℚ := min x u

/-- The '5x16' hub-PVM column after the `q_upper = 1` clip. -/
def hub_pvm_clipped (vols : List (Int × ℚ)) : List (Int × ℚ) :=
  let col := hub_pvm_on_col vols
  let q := quantile_one (col.map Prod.snd)
  col.map (fun p => (p.1, clip_upper q p.2))

/-- `groupby(index.month).mean()` on a month-end-indexed column: one row
per calendar month present, carrying the mean of that month's entries. -/
def monthly_means (col : List (Int × ℚ)) : List (Int × ℚ) :=
  ((col.map (fun p => (civilFromDays p.1).2.1)).dedup).map
    (fun m => (m, listMean ((col.filter (fun p => (civilFromDays p.1).2.1 = m)).map Prod.snd)))

/-- The '5x16' column of the returned 'Hub' matrix: the rows of
`hub_pvm_averages` for the months present, and the appended 'Avg' value
(`.loc['Avg', :] = .mean(axis=0)`). -/
def hub_matrix_on_col (vols : List (Int × ℚ)) : List (Int × ℚ) × ℚ :=
  let ma := monthly_means (hub_pvm_clipped vols)
  (ma, listMean (ma.map Prod.snd))

/-!  Theorems settling the claims, with their supporting lemmas. -/

/-- C1: evaluation at the failing markets — for every supported market other
than MISO (including PJM, ISONE and SPP, which the claim says must yield a
Splitter, and CAISO, which passes the `assert`), `pull_lmp_and_calc_splitter`
raises `NameError` instead of returning a Splitter, because the whole
computation block (including `splitter_dict = {}`) is indented inside the
`if iso == 'MISO':` branch of the source. -/
theorem C1_splitter_unassigned_dict (pdf : ℚ → ℚ) (T : List DailyRow) :
    pull_lmp_and_calc_splitter pdf .PJM T = .error .nameError ∧
    pull_lmp_and_calc_splitter pdf .ISONE T = .error .nameError ∧
    pull_lmp_and_calc_splitter pdf .SPP T = .error .nameError ∧
    pull_lmp_and_calc_splitter pdf .CAISO T = .error .nameError :=
  ⟨rfl, rfl, rfl, rfl⟩

/-- C2 (counterexample): 2024-07-04 is a Thursday and is one of the year's
holidays, yet classifying it at hour 10 for PJM does not give "7x8": the
holiday makes the daytime hour off-peak, which lands in "2x16", not "7x8". -/
theorem C2_holiday_hour_counterexample :
    (⟨2024, 7, 4⟩ : Date).dayofweek = 3 ∧
    (⟨2024, 7, 4⟩ : Date) ∈ get_holidays 2024 ∧
    date_hour_to_peak_block ⟨2024, 7, 4⟩ 10 .PJM ≠ .ok "7x8" := by
  refine ⟨by decide, by decide, by decide⟩

/-- C2 (amended): classify(2024-07-04, 10, PJM) = "2x16" — the holiday
overrides the daytime hour by making it OFF-PEAK (weekend/holiday daytime
block), not night; classify(2024-07-10, 10, PJM) = "5x16" and
classify(2024-07-10, 2, PJM) = "7x8" as claimed. -/
theorem C2_concrete_classifications :
    date_hour_to_peak_block ⟨2024, 7, 4⟩ 10 .PJM = .ok "2x16" ∧
    date_hour_to_peak_block ⟨2024, 7, 10⟩ 10 .PJM = .ok "5x16" ∧
    date_hour_to_peak_block ⟨2024, 7, 10⟩ 2 .PJM = .ok "7x8" := by
  refine ⟨by decide, by decide, by decide⟩

/-- C3: for every supported market and every (date, hour 1..24) the
classifier returns exactly one label, never reaching its error branch, and
the label belongs to the market's scheme (four Pacific categories for
CAISO, the three-category scheme otherwise).  Determinism and purity hold
by construction: the result depends only on (date, hour, market) and the
holiday calendar of the date's year. -/
theorem C3_classifier_total_and_in_scheme (iso : Iso) (date : Date) (hour : Int)
    (h1 : 1 ≤ hour) (h2 : hour ≤ 24) :
    date_hour_to_peak_block date hour iso = .ok (peak_block_label date hour iso) ∧
    peak_block_label date hour iso ∈ peak_block_scheme iso := by
  cases iso <;>
    (simp only [date_hour_to_peak_block, peak_block_label, peak_block_scheme, Except.toOption,
       reduceCtorEq, if_true, if_false]
     norm_num
     split <;> simp_all <;> split <;> simp_all <;> omega)

/-- C5: `peak_block_to_complement` is an involution on every label that has
a complement, maps "5x16" to the explicit no-complement result `none`
(never an error), and fails with the unrecognized-label error on every
other string. -/
theorem C5_complement_contract :
    (∀ l l', peak_block_to_complement l = .ok (some l') →
      peak_block_to_complement l' = .ok (some l)) ∧
    peak_block_to_complement "5x16" = .ok none ∧
    (∀ s, s ∉ ["5x16", "7x8", "2x16", "Off-Night", "Off-Sunday",
        "6x16-Saturday", "6x16-Weekday"] →
      peak_block_to_complement s = .error ("Peak Block not recognized: " ++ s)) := by
  refine ⟨?_, by decide, ?_⟩
  · intro l l' h
    unfold peak_block_to_complement at h
    split_ifs at h with h1 h2 h3 h4 h5 h6 h7 <;> simp_all <;> subst h <;> decide
  · intro s hs
    simp only [List.mem_cons, List.not_mem_nil, or_false, not_or] at hs
    obtain ⟨n1, n2, n3, n4, n5, n6, n7⟩ := hs
    simp only [peak_block_to_complement, if_neg n1, if_neg n2, if_neg n3, if_neg n4,
      if_neg n5, if_neg n6, if_neg n7]

/-- C5 witness: the involution applied at the concrete pair ("7x8", "2x16"). -/
theorem C5_complement_contract_witness :
    peak_block_to_complement "2x16" = .ok (some "7x8") :=
  C5_complement_contract.1 "7x8" "2x16" (by decide)

/-- C3 witness: instantiated at PJM, 2024-07-10, hour 10. -/
theorem C3_classifier_total_witness :
    date_hour_to_peak_block ⟨2024, 7, 10⟩ 10 .PJM =
      .ok (peak_block_label ⟨2024, 7, 10⟩ 10 .PJM) ∧
    peak_block_label ⟨2024, 7, 10⟩ 10 .PJM ∈ peak_block_scheme .PJM :=
  C3_classifier_total_and_in_scheme .PJM ⟨2024, 7, 10⟩ 10 (by decide) (by decide)

/-- C9: `convert_lmps_tz` is a pure relabelling of the time axis: the
output has exactly as many rows as the input and carries every input row's
price unchanged, in order; only Date and Hour are recomputed. -/
theorem C9_convert_preserves_rows_and_prices (rows : List LmpRow)
    (convert_from : SrcTz) (convert_to : String) :
    (convert_lmps_tz rows convert_from convert_to).length = rows.length ∧
    (convert_lmps_tz rows convert_from convert_to).map LmpRow.price =
      rows.map LmpRow.price := by
  constructor
  · simp [convert_lmps_tz]
  · rw [convert_lmps_tz, List.map_map]
    exact List.map_congr_left (fun r _ => rfl)

/-- Sum of a constant-one map equals the (cast) length. -/
theorem sum_map_one {α : Type} (l : List α) : (l.map (fun _ => (1 : ℚ))).sum = l.length := by
  induction l with
  | nil => simp
  | cons a t ih => simp [ih]; ring

/-- A list of ones sums to the (cast) length. -/
theorem sum_of_ones (l : List ℚ) (h1 : ∀ x ∈ l, x = 1) : l.sum = l.length := by
  induction l with
  | nil => simp
  | cons a t ih =>
    rw [List.sum_cons, ih (fun x hx => h1 x (List.mem_cons_of_mem a hx)),
      h1 a (List.mem_cons_self a t), List.length_cons]
    push_cast
    ring

/-- Summing `if k = h then c + g h else g h` over a duplicate-free list
containing `k` adds `c` exactly once. -/
theorem sum_map_ite_mem (hs : List Int) (k : Int) (hnd : hs.Nodup) (hk : k ∈ hs)
    (c : ℚ) (g : Int → ℚ) :
    (hs.map (fun h => if k = h then c + g h else g h)).sum = c + (hs.map g).sum := by
  induction hs with
  | nil => cases hk
  | cons h t ih =>
    rcases List.mem_cons.mp hk with h1 | hk'
    · subst h1
      rw [List.map_cons, if_pos rfl, List.sum_cons]
      have hnotin := (List.nodup_cons.mp hnd).1
      have hmap : t.map (fun h' => if k = h' then c + g h' else g h') = t.map g := by
        apply List.map_congr_left
        intro x hx
        exact if_neg (fun e => hnotin (by rw [e]; exact hx))
      rw [hmap, List.map_cons, List.sum_cons]
      ring
    · have hne : k ≠ h := fun e => (List.nodup_cons.mp hnd).1 (by rw [← e]; exact hk')
      rw [List.map_cons, List.sum_cons, if_neg hne,
        ih (List.nodup_cons.mp hnd).2 hk', List.map_cons, List.sum_cons]
      ring

/-- Fiberwise decomposition of a list sum: summing the per-key fiber sums
over a duplicate-free list of keys covering the observations gives the
total sum. -/
theorem sum_fiber (f : Int × ℚ → ℚ) (obs : List (Int × ℚ)) (hs : List Int)
    (hnd : hs.Nodup) (hcov : ∀ o ∈ obs, o.1 ∈ hs) :
    (hs.map (fun h => ((obs.filter (fun o => o.1 = h)).map f).sum)).sum =
      (obs.map f).sum := by
  induction obs with
  | nil => simp
  | cons a t ih =>
    have hcov_t : ∀ o ∈ t, o.1 ∈ hs := fun o ho => hcov o (List.mem_cons_of_mem a ho)
    have hmem : a.1 ∈ hs := hcov a (List.mem_cons_self a t)
    have hstep : hs.map (fun h => (((a :: t).filter (fun o => o.1 = h)).map f).sum) =
        hs.map (fun h => if a.1 = h then f a + ((t.filter (fun o => o.1 = h)).map f).sum
          else ((t.filter (fun o => o.1 = h)).map f).sum) := by
      apply List.map_congr_left
      intro h _
      by_cases hah : a.1 = h
      · rw [if_pos hah, List.filter_cons_of_pos (by simp [hah]), List.map_cons, List.sum_cons]
      · rw [if_neg hah, List.filter_cons_of_neg (by simp [hah])]
    rw [hstep, sum_map_ite_mem hs a.1 hnd hmem (f a) _, ih hcov_t, List.map_cons, List.sum_cons]

/-- C4: the hour-count-weighted average of a (month, block) group's hourly
shaper ratios equals exactly 1 in exact arithmetic, for any nonempty group
whose block mean price is nonzero (so that the ratios are defined); in
particular this covers every group with full hourly coverage in the
lookback window. -/
theorem C4_shaper_normalization (obs : List (Int × ℚ)) (hne : obs ≠ [])
    (hbm : avg_peak_block obs ≠ 0) :
    weighted_shaper_avg obs = 1 := by
  have hS : (obs.map Prod.snd).sum ≠ 0 := by
    intro h0
    exact hbm (by simp [avg_peak_block, h0])
  have hN : ((obs.length : ℚ)) ≠ 0 := by
    have := List.length_pos.mpr hne
    positivity
  have hnd : (obsHours obs).Nodup := List.nodup_dedup _
  have hcov : ∀ o ∈ obs, o.1 ∈ obsHours obs := fun o ho =>
    List.mem_dedup.mpr (List.mem_map_of_mem Prod.fst ho)
  have hcnt_ne : ∀ h ∈ obsHours obs, (hourCnt obs h : ℚ) ≠ 0 := by
    intro h hh
    obtain ⟨o, ho, heq⟩ := List.mem_map.mp (List.mem_dedup.mp hh)
    have hmemf : o ∈ obs.filter (fun o => o.1 = h) :=
      List.mem_filter.mpr ⟨ho, by simp [heq]⟩
    have hpos : 0 < hourCnt obs h := List.length_pos.mpr (List.ne_nil_of_mem hmemf)
    exact_mod_cast hpos.ne'
  have hden : ((obsHours obs).map (fun h => (hourCnt obs h : ℚ))).sum = obs.length := by
    have h1 : ∀ h ∈ obsHours obs, (hourCnt obs h : ℚ) =
        ((obs.filter (fun o => o.1 = h)).map (fun _ => (1 : ℚ))).sum := by
      intro h _
      rw [sum_map_one]
      rfl
    rw [List.map_congr_left h1, sum_fiber (fun _ => (1 : ℚ)) obs _ hnd hcov, sum_map_one]
  have hnum : ((obsHours obs).map (fun h => (hourCnt obs h : ℚ) * shaper_at obs h)).sum =
      (obs.map Prod.snd).sum * (avg_peak_block obs)⁻¹ := by
    have h2 : ∀ h ∈ obsHours obs, (hourCnt obs h : ℚ) * shaper_at obs h =
        ((obs.filter (fun o => o.1 = h)).map Prod.snd).sum * (avg_peak_block obs)⁻¹ := by
      intro h hh
      have hc := hcnt_ne h hh
      rw [shaper_at, avg_hourly, hourSum]
      field_simp
      ring
    rw [List.map_congr_left h2, List.sum_map_mul_right, sum_fiber Prod.snd obs _ hnd hcov]
  rw [weighted_shaper_avg, hnum, hden]
  rw [avg_peak_block]
  rw [inv_div]
  field_simp

/-- C4 witness: a concrete three-observation group over two hours. -/
theorem C4_shaper_normalization_witness :
    weighted_shaper_avg [((1 : Int), (2 : ℚ)), (1, 4), (2, 6)] = 1 :=
  C4_shaper_normalization _ (by decide) (by norm_num [avg_peak_block])

/-- For any `convert_to` other than 'CPT' or 'EPT' (such as 'EST'), the
source's branch structure leaves the naive timestamps untouched, so the
conversion returns every (Date, Hour, Price) triple unchanged. -/
theorem convert_lmps_tz_other_target (rows : List LmpRow) (convert_from : SrcTz)
    (convert_to : String) (hc : convert_to ≠ "CPT") (he : convert_to ≠ "EPT")
    (hb : ∀ r ∈ rows, 1 ≤ r.hour ∧ r.hour ≤ 24) :
    convert_lmps_tz rows convert_from convert_to = rows := by
  have hrow : ∀ r ∈ rows,
      (fun r : LmpRow =>
        let naive := r.date * 24 + (r.hour - 1)
        let wall :=
          if convert_to = "CPT" then
            let utc := naive - localizeOffset convert_from naive
            utc + usCentralOffsetAt utc
          else if convert_to = "EPT" then
            let utc := naive - localizeOffset convert_from naive
            utc + usEasternOffsetAt utc
          else naive
        (⟨wall / 24, wall % 24 + 1, r.price⟩ : LmpRow)) r = r := by
    intro r hr
    have hb' := hb r hr
    obtain ⟨d, h, p⟩ := r
    have hlo : 1 ≤ h := hb'.1
    have hhi : h ≤ 24 := hb'.2
    have e1 : (d * 24 + (h - 1)) / 24 = d := by omega
    have e2 : (d * 24 + (h - 1)) % 24 + 1 = h := by omega
    simp only [if_neg hc, if_neg he]
    rw [e1, e2]
  calc convert_lmps_tz rows convert_from convert_to
      = rows.map id := List.map_congr_left hrow
    _ = rows := List.map_id rows

/-- Every row produced by `convert_lmps_tz` carries an hour in 1..24. -/
theorem convert_lmps_tz_hour_bounds (rows : List LmpRow) (convert_from : SrcTz)
    (convert_to : String) :
    ∀ r ∈ convert_lmps_tz rows convert_from convert_to, 1 ≤ r.hour ∧ r.hour ≤ 24 := by
  intro r hr
  simp only [convert_lmps_tz, List.mem_map] at hr
  obtain ⟨x, _, rfl⟩ := hr
  constructor <;> simp only <;> omega

/-- C6 (counterexample): 2024-07-10 (day number 19914) is neither the
spring nor the fall DST transition day of the target zone, yet converting
the single observation (2024-07-10, hour 12, price 5) from 'EST' to 'EPT'
and converting the result back to 'EST' yields hour 13, not the original
triple: the reverse call performs no conversion at all. -/
theorem C6_roundtrip_counterexample :
    civilFromDays 19914 = (2024, 7, 10) ∧
    spring_dst 2024 ≠ ⟨2024, 7, 10⟩ ∧
    fall_dst 2024 ≠ ⟨2024, 7, 10⟩ ∧
    convert_lmps_tz [⟨19914, 12, 5⟩] .EST "EPT" = [⟨19914, 13, 5⟩] ∧
    convert_lmps_tz (convert_lmps_tz [⟨19914, 12, 5⟩] .EST "EPT") .USEastern "EST" ≠
      [⟨19914, 12, 5⟩] := by
  refine ⟨by decide, by decide, by decide, by decide, by decide⟩

/-- C6 (amended): the function re-bases the time axis only when the target
is 'CPT' or 'EPT'; a conversion "back to 'EST'" leaves every triple
unchanged, so the source→target→source round trip returns the
target-zone series (the original is reproduced only where the forward
conversion itself was the identity, e.g. winter days for EST→EPT). -/
theorem C6_roundtrip_amended (rows : List LmpRow) (back_from : SrcTz)
    (hb : ∀ r ∈ rows, 1 ≤ r.hour ∧ r.hour ≤ 24) :
    convert_lmps_tz rows back_from "EST" = rows ∧
    convert_lmps_tz (convert_lmps_tz rows .EST "EPT") back_from "EST" =
      convert_lmps_tz rows .EST "EPT" :=
  ⟨convert_lmps_tz_other_target rows back_from "EST" (by decide) (by decide) hb,
   convert_lmps_tz_other_target _ back_from "EST" (by decide) (by decide)
     (convert_lmps_tz_hour_bounds rows .EST "EPT")⟩

/-- C6 witness: the amended statement at a concrete one-row summer series. -/
theorem C6_roundtrip_amended_witness :
    convert_lmps_tz [(⟨19914, 12, 5⟩ : LmpRow)] .USEastern "EST" = [⟨19914, 12, 5⟩] ∧
    convert_lmps_tz (convert_lmps_tz [(⟨19914, 12, 5⟩ : LmpRow)] .EST "EPT") .USEastern "EST" =
      convert_lmps_tz [(⟨19914, 12, 5⟩ : LmpRow)] .EST "EPT" :=
  C6_roundtrip_amended [⟨19914, 12, 5⟩] .USEastern (by decide)

/-- pandas NaN-skipping sum of an optionally-missing weighted column equals
the plain sum over the rows where the value is present. -/
theorem nansum_map_eq_sum_filter (f : DailyRow → ℚ) (sel : DailyRow → Option ℚ)
    (T : List DailyRow) :
    nansum (T.map (fun r => (sel r).map (fun v => v * f r))) =
      ((T.filter (fun r => (sel r).isSome)).map (fun r => (sel r).getD 0 * f r)).sum := by
  induction T with
  | nil => rfl
  | cons r t ih =>
    simp only [nansum, List.map_map] at ih ⊢
    cases hsel : sel r with
    | none => simp [Function.comp, hsel, List.filter_cons, ih]
    | some v => simp [Function.comp, hsel, List.filter_cons, ih]

/-- C7 (counterexample): a two-day table in which the second day has no Off
value; the code's Off average (which keeps that day's weight in the
denominator) differs from the claim's Off average (which drops it from
numerator and denominator alike). -/
theorem C7_off_denominator_counterexample :
    avg_off (fun _ => 1) [⟨1, some 10, some 10, 1, 1⟩, ⟨1, some 10, none, 1, 1⟩] ≠
      spec_weighted_avg_off (fun _ => 1)
        [⟨1, some 10, some 10, 1, 1⟩, ⟨1, some 10, none, 1, 1⟩] := by
  norm_num [avg_off, spec_weighted_avg_off, nansum, wOff]

/-- C7 (amended): the 2x16 weighted average excludes a day with no 2x16
value from both its numerator and its denominator, exactly as claimed; the
Off weighted average excludes such a day from its NUMERATOR only — its
denominator sums the Kernel×Decay×DayTypeWeight weights over all days — and
the claim's Off formula is recovered exactly when every day has an Off
value. -/
theorem C7_splitter_weighted_averages (kw : Int → ℚ) (T : List DailyRow) :
    avg_2x16 kw T = spec_weighted_avg_2x16 kw T ∧
    avg_off kw T =
      ((T.filter (fun r => r.priceOff.isSome)).map
        (fun r => r.priceOff.getD 0 * wOff kw r)).sum / (T.map (wOff kw)).sum ∧
    ((∀ r ∈ T, r.priceOff.isSome) → avg_off kw T = spec_weighted_avg_off kw T) := by
  refine ⟨?_, ?_, ?_⟩
  · rw [avg_2x16, spec_weighted_avg_2x16,
      nansum_map_eq_sum_filter (w2x16 kw) (fun r => r.price2x16) T]
  · rw [avg_off, nansum_map_eq_sum_filter (wOff kw) (fun r => r.priceOff) T]
  · intro hall
    rw [avg_off, spec_weighted_avg_off,
      nansum_map_eq_sum_filter (wOff kw) (fun r => r.priceOff) T,
      List.filter_eq_self.mpr (fun r hr => by simpa using hall r hr)]

/-- C7 witness: the all-days-have-Off case at a concrete one-row table. -/
theorem C7_splitter_weighted_averages_witness :
    avg_off (fun _ => 1) [⟨1, some 10, some 10, 1, 1⟩] =
      spec_weighted_avg_off (fun _ => 1) [⟨1, some 10, some 10, 1, 1⟩] :=
  (C7_splitter_weighted_averages (fun _ => 1) [⟨1, some 10, some 10, 1, 1⟩]).2.2
    (by decide)

/-- The diff of a series has one entry fewer than the series. -/
theorem cash_returns_length (rlog rsqrt : ℚ → ℚ) (l : List (Int × ℚ)) :
    (cash_returns rlog rsqrt l).length = l.length - 1 := by
  simp [cash_returns]

/-- Entrywise, the vectorized diff/scale pipeline produces exactly the
index-formula scaled return of consecutive elements. -/
theorem cash_returns_getD (rlog rsqrt : ℚ → ℚ) (l : List (Int × ℚ)) (i : ℕ)
    (hi : i + 1 < l.length) :
    (cash_returns rlog rsqrt l).getD i (0, 0) = spec_scaled_return rlog rsqrt l i := by
  have hlen : i < (cash_returns rlog rsqrt l).length := by
    rw [cash_returns_length]
    omega
  have hti : i < l.tail.length := by
    rw [List.length_tail]
    omega
  rw [List.getD_eq_getElem _ _ hlen, spec_scaled_return,
    List.getD_eq_getElem _ _ (by omega : i < l.length), List.getD_eq_getElem _ _ hi]
  simp [cash_returns, List.getElem_tail]

/-- C8: for every daily block series, the code (i) drops the missing days
rather than filling them, and pairs each remaining day with the next
available one; (ii) scales each log-price difference by the annualization
factor `sqrt(elapsedCalendarDays/360)`; (iii) aggregates by calendar month
(the `freq='ME'` grouping), by root-mean-square when `zero_mean` is set and
by the sample (ddof = 1) standard deviation otherwise — stated against
independently written spec-side formulas. -/
theorem C8_cash_vol_refinement (rlog rsqrt : ℚ → ℚ) (s : List (Int × Option ℚ))
    (ym : Int × Int) :
    ((cash_returns rlog rsqrt (dropna s)).length = (dropna s).length - 1) ∧
    (∀ i, i + 1 < (dropna s).length →
      (cash_returns rlog rsqrt (dropna s)).getD i (0, 0) =
        spec_scaled_return rlog rsqrt (dropna s) i) ∧
    (monthly_vol rsqrt true (cash_returns rlog rsqrt (dropna s)) ym =
      spec_rms rsqrt (((cash_returns rlog rsqrt (dropna s)).filter
        (fun r => monthKeyOf r.1 = ym)).map Prod.snd)) ∧
    (monthly_vol rsqrt false (cash_returns rlog rsqrt (dropna s)) ym =
      spec_sample_std rsqrt (((cash_returns rlog rsqrt (dropna s)).filter
        (fun r => monthKeyOf r.1 = ym)).map Prod.snd)) := by
  refine ⟨cash_returns_length rlog rsqrt (dropna s),
    fun i hi => cash_returns_getD rlog rsqrt (dropna s) i hi, ?_, ?_⟩ <;>
    simp [monthly_vol, spec_rms, spec_sample_std, listMean]

/-- C8 witness: the consecutive-available-days formula at a concrete series
with one missing day. -/
theorem C8_cash_vol_refinement_witness :
    (cash_returns id id (dropna [(0, some 2), (1, none), (3, some 5)])).getD 0 (0, 0) =
      spec_scaled_return id id (dropna [(0, some 2), (1, none), (3, some 5)]) 0 :=
  (C8_cash_vol_refinement id id [(0, some 2), (1, none), (3, some 5)] (2024, 1)).2.1 0
    (by decide)

/-- The fold computing `quantile(q=1)` of an all-ones column returns 1. -/
theorem quantile_one_of_ones (l : List ℚ) (hne : l ≠ []) (h1 : ∀ x ∈ l, x = 1) :
    quantile_one l = 1 := by
  induction l with
  | nil => cases hne rfl
  | cons a t ih =>
    rcases eq_or_ne t [] with rfl | hta
    · have := h1 a (List.mem_cons_self a [])
      subst this
      simp [quantile_one]
    · have hmax := ih hta (fun x hx => h1 x (List.mem_cons_of_mem a hx))
      have ha := h1 a (List.mem_cons_self a t)
      subst ha
      simp only [quantile_one, List.foldr_cons] at hmax ⊢
      rw [hmax]
      simp

/-- The mean of a nonempty all-ones list is 1. -/
theorem listMean_of_ones (l : List ℚ) (hne : l ≠ []) (h1 : ∀ x ∈ l, x = 1) :
    listMean l = 1 := by
  have hlen : (l.length : ℚ) ≠ 0 := by
    have := List.length_pos.mpr hne
    positivity
  rw [listMean, sum_of_ones l h1, div_self hlen]

/-- C10: with `q_upper = 1`, whenever the hub's '5x16' monthly cash vols
are all defined and nonzero, every monthly row of the returned 'Hub'
matrix carries exactly 1 in the '5x16' column, and so does the appended
'Avg' row. -/
theorem C10_hub_on_peak_column (vols : List (Int × ℚ)) (hne : vols ≠ [])
    (hnz : ∀ p ∈ vols, p.2 ≠ 0) :
    (∀ e ∈ (hub_matrix_on_col vols).1, e.2 = 1) ∧ (hub_matrix_on_col vols).2 = 1 := by
  have hdiv : ∀ p ∈ hub_pvm_on_col vols, p.2 = 1 := by
    intro p hp
    simp only [hub_pvm_on_col, List.mem_map] at hp
    obtain ⟨q, hq, rfl⟩ := hp
    exact div_self (hnz q hq)
  have hpvm_ne : hub_pvm_on_col vols ≠ [] := by
    simpa [hub_pvm_on_col] using hne
  have hqone : quantile_one ((hub_pvm_on_col vols).map Prod.snd) = 1 := by
    apply quantile_one_of_ones
    · simpa using hpvm_ne
    · intro x hx
      obtain ⟨p, hp, rfl⟩ := List.mem_map.mp hx
      exact hdiv p hp
  have hclip : ∀ p ∈ hub_pvm_clipped vols, p.2 = 1 := by
    intro p hp
    simp only [hub_pvm_clipped, List.mem_map] at hp
    obtain ⟨q, hq, rfl⟩ := hp
    simp [clip_upper, hqone, hdiv q hq]
  have hclip_ne : hub_pvm_clipped vols ≠ [] := by
    simpa [hub_pvm_clipped] using hpvm_ne
  have hmm : ∀ e ∈ monthly_means (hub_pvm_clipped vols), e.2 = 1 := by
    intro e he
    simp only [monthly_means, List.mem_map] at he
    obtain ⟨m, hm, rfl⟩ := he
    apply listMean_of_ones
    · obtain ⟨p, hp, hpm⟩ := List.mem_map.mp (List.mem_dedup.mp hm)
      have hmemf : p ∈ (hub_pvm_clipped vols).filter
          (fun p => (civilFromDays p.1).2.1 = m) :=
        List.mem_filter.mpr ⟨hp, by simp [hpm]⟩
      exact List.ne_nil_of_mem (List.mem_map_of_mem Prod.snd hmemf)
    · intro x hx
      obtain ⟨p, hp, rfl⟩ := List.mem_map.mp hx
      exact hclip p (List.mem_filter.mp hp).1
  have hmm_ne : monthly_means (hub_pvm_clipped vols) ≠ [] := by
    simp only [monthly_means]
    intro hempty
    rcases List.map_eq_nil_iff.mp hempty with hded
    exact hclip_ne (by simpa using (List.dedup_eq_nil _).mp hded)
  refine ⟨?_, ?_⟩
  · intro e he
    exact hmm e he
  · apply listMean_of_ones
    · simpa using hmm_ne
    · intro x hx
      obtain ⟨e, hee, rfl⟩ := List.mem_map.mp hx
      exact hmm e hee

/-- C10 witness: the 'Avg' entry at two defined, nonzero month-end vols
(Jan and Feb 2024). -/
theorem C10_hub_on_peak_column_witness :
    (hub_matrix_on_col [(daysFromCivil 2024 1 31, 3), (daysFromCivil 2024 2 29, 4)]).2 = 1 :=
  (C10_hub_on_peak_column [(daysFromCivil 2024 1 31, 3), (daysFromCivil 2024 2 29, 4)]
    (by decide) (by norm_num)).2

end RANEM
